import Mathlib

/-!
Shallow embedding of the core of the `anima` agent (the per-cycle interaction
state machine in `src/agent/brain.py` and the memory subsystem in
`src/memory/mem0_adapter.py`), together with theorems settling the frozen
claims about it.

Modelling conventions:
* Python exceptions become `Except PyError`.  A collaborator call that the
  source wraps in `try/except` and swallows is modelled as a total function.
* Python floats that the code only compares (similarity scores, adherence
  scores, thresholds) are modelled as rationals; the retry backoff delays
  (1.0, 2.0, 4.0, ...) are exact powers of two and are modelled as naturals.
* Collaborator behaviour (the platform client, the generative service, the
  mem0 backend) is an oracle: a record of functions giving the outcome of
  each call the code makes.
* Calls whose occurrence the claims talk about (fetch, should_engage,
  generate_response, reply_to_post, memory adds) are additionally recorded in
  an event list returned next to the source's return value.
* Effects that nothing here observes — console prints, structured logging,
  the cycle-metrics file, the cross-cycle daily counter, the pacing sleeps
  and `_last_interaction_time` — are projected away; they feed no return
  value and no call the claims mention.
-/

namespace Anima

/-- Truthiness of a Python `Optional[str]` in boolean context: `None` and the
empty string are falsy. -/
def pyTruthy : Option String → Bool
  | none => false
  | some s => !(s == "")

/-- Python `t or default` for an `Optional[float]` parameter: `None` and `0.0`
are falsy, so both fall back to the default. -/
def pyOrQ : Option ℚ → ℚ → ℚ
  | none, d => d
  | some t, d => if t = 0 then d else t

/-- Python `str.strip()`: drop whitespace from both ends. -/
def pyStrip (s : String) : String :=
  String.mk (((s.data.dropWhile Char.isWhitespace).reverse.dropWhile
    Char.isWhitespace).reverse)

/-- Python `s or default` for an `Optional[str]`: `None` and `""` fall back. -/
def pyOrStr : Option String → String → String
  | none, d => d
  | some s, d => if s == "" then d else s

/-- Python `str.isdigit()` restricted to ASCII digits (Threads Graph ids are
decimal): nonempty and all characters are digits. -/
def pyIsDigit (s : String) : Bool :=
  !(s == "") && s.data.all Char.isDigit

/-- The payload of a `ThreadsAPIError` (`src/threads/client.py`): message,
HTTP-like status code and the provider error code read from the response. -/
structure APIError where
  message : String
  status_code : Option Int
  error_code : Option Int
deriving DecidableEq, Repr

/-- A Python exception as the interaction pipeline classifies it: either a
`ThreadsAPIError` or any other exception, carrying its `str(e)`. -/
inductive PyError where
  | api : APIError → PyError
  | other : String → PyError
deriving DecidableEq, Repr

/-- `str(e)` of a modelled exception (`ThreadsAPIError.__init__` forwards its
message to `Exception`). -/
def PyError.msg : PyError → String
  | .api e => e.message
  | .other m => m

/-! ## Memory subsystem (`src/memory/mem0_adapter.py`) -/

/-- The `MemoryType` enum. -/
inductive MemoryType where
  | episodic
  | semantic
  | reflective
  | obsv
  | interaction
deriving DecidableEq, Repr

/-- The `.value` string of a `MemoryType` member (`obsv` models the source's
observation member). -/
def MemoryType.value : MemoryType → String
  | .episodic => "episodic"
  | .semantic => "semantic"
  | .reflective => "reflective"
  | .obsv => "observation"
  | .interaction => "interaction"

/-- One raw item of a mem0 `search`/`get_all` response.  The metadata fields
the adapter reads are modelled as typed fields: `memory_type` already carries
the `metadata.get("memory_type", "observation")` default, `created_at` the
parsed `metadata["timestamp"]` as an ordered instant, `skipped` the
`metadata.get("skipped")` flag and `post_id` the `metadata.get("post_id")`
value; `score` is `item.get("score")`. -/
structure RawItem where
  id : String
  memory : String
  score : Option ℚ := none
  memory_type : MemoryType := .obsv
  created_at : Int := 0
  skipped : Bool := false
  post_id : Option String := none
deriving DecidableEq, Repr

/-- The `MemoryEntry` model (its `metadata` map is projected to the fields the
code reads). -/
structure MemoryEntry where
  id : String
  content : String
  memory_type : MemoryType
  created_at : Int
  skipped : Bool
  post_id : Option String
  relevance_score : Option ℚ
deriving DecidableEq, Repr

/-- The mem0 store collaborator, keyed the way the adapter calls it:
`search`/`get_all` under a `user_id` or an `agent_id` scope may fail; `add` is
always issued through `_safe_add`, which swallows exceptions and yields
`result.get("id")`, so it is modelled as total with an optional id. -/
structure Mem0 where
  searchByUser : String → String → Nat → Except PyError (List RawItem)
  searchByAgent : String → String → Nat → Except PyError (List RawItem)
  getAllByUser : String → Nat → Except PyError (List RawItem)
  getAllByAgent : String → Nat → Except PyError (List RawItem)
  addByUser : String → String → Option String
  addByAgent : String → String → Option String

/-- The `AgentMemory` wrapper state: the backing store, the agent id and the
semantic-dedup threshold (`self.dedup_threshold = 0.85`). -/
structure AgentMemoryM where
  store : Mem0
  agent_id : String
  dedup_threshold : ℚ := 17/20

/-- `AgentMemory._parse_memory_item`: drop skipped records unless asked to
include them, apply the optional memory-type filter, and build the entry. -/
def parseMemoryItem (item : RawItem) (filter : Option MemoryType := none)
    (includeSkipped : Bool := false) : Option MemoryEntry :=
  if !includeSkipped && item.skipped then none
  else
    match filter with
    | some f =>
      if item.memory_type = f then
        some ⟨item.id, item.memory, item.memory_type, item.created_at,
          item.skipped, item.post_id, item.score⟩
      else none
    | none =>
      some ⟨item.id, item.memory, item.memory_type, item.created_at,
        item.skipped, item.post_id, item.score⟩

/-- The merge loop shared by `search` and `get_recent`: walk the concatenated
result lists, skip ids already seen (an id is marked seen even when the item
is then filtered out by parsing), parse and keep the rest in order. -/
def mergeParse (filter : Option MemoryType) :
    List RawItem → List String → List MemoryEntry
  | [], _ => []
  | item :: rest, seen =>
    if seen.contains item.id then mergeParse filter rest seen
    else
      match parseMemoryItem item filter with
      | some e => e :: mergeParse filter rest (item.id :: seen)
      | none => mergeParse filter rest (item.id :: seen)

/-- Insert `a` before the first element `b` with `le a b` (all earlier
elements compare strictly before `a`). -/
def orderedInsertBy (le : α → α → Bool) (a : α) : List α → List α
  | [] => [a]
  | b :: l => if le a b then a :: b :: l else b :: orderedInsertBy le a l

/-- Stable sort with respect to the total preorder `le` (`le a b` = "a may
come before b").  Python's `list.sort` is stable, and for a total preorder
every stable sort computes the same list, so this insertion sort is
extensionally the sort the source performs. -/
def stableSortBy (le : α → α → Bool) : List α → List α
  | [] => []
  | a :: l => orderedInsertBy le a (stableSortBy le l)

/-- `entries.sort(key=lambda x: x.relevance_score or 0, reverse=True)`:
stable descending sort by relevance score. -/
def sortByScoreDesc (l : List MemoryEntry) : List MemoryEntry :=
  stableSortBy (fun a b =>
    decide ((b.relevance_score.getD 0) ≤ (a.relevance_score.getD 0))) l

/-- `entries.sort(key=lambda x: x.created_at, reverse=True)`: stable
descending sort by timestamp. -/
def sortByTimeDesc (l : List MemoryEntry) : List MemoryEntry :=
  stableSortBy (fun a b => decide (b.created_at ≤ a.created_at)) l

/-- The ordering used by `get_context_for_response`:
`key=lambda x: (x.relevance_score or 0, x.created_at.timestamp())`,
`reverse=True`, i.e. lexicographically descending. -/
def ctxBefore (a b : MemoryEntry) : Bool :=
  decide ((b.relevance_score.getD 0) < (a.relevance_score.getD 0)) ||
    (decide ((a.relevance_score.getD 0) = (b.relevance_score.getD 0)) &&
      decide (b.created_at ≤ a.created_at))

/-- Stable sort of the context candidates by `(score, recency)` descending. -/
def sortByScoreTimeDesc (l : List MemoryEntry) : List MemoryEntry :=
  stableSortBy ctxBefore l

/-- `AgentMemory.search`: query the agent scope and the user scope under the
agent's own id, merge and dedupe by id, sort by relevance descending (stable)
and truncate to `limit`.  Backend failures propagate to the caller. -/
def memSearch (am : AgentMemoryM) (query : String) (limit : Nat := 10)
    (memory_type : Option MemoryType := none) :
    Except PyError (List MemoryEntry) :=
  match am.store.searchByAgent am.agent_id query limit with
  | .error e => .error e
  | .ok agentResults =>
    match am.store.searchByUser am.agent_id query limit with
    | .error e => .error e
    | .ok userResults =>
      let entries := mergeParse memory_type (agentResults ++ userResults) []
      .ok ((sortByScoreDesc entries).take limit)

/-- `AgentMemory.get_recent`: `get_all` in both scopes with `limit * 2`, merge
and dedupe by id, sort by timestamp descending and truncate. -/
def getRecent (am : AgentMemoryM) (limit : Nat := 20)
    (memory_type : Option MemoryType := none) :
    Except PyError (List MemoryEntry) :=
  match am.store.getAllByAgent am.agent_id (limit * 2) with
  | .error e => .error e
  | .ok agentMemories =>
    match am.store.getAllByUser am.agent_id (limit * 2) with
    | .error e => .error e
    | .ok userMemories =>
      let entries := mergeParse memory_type (agentMemories ++ userMemories) []
      .ok ((sortByTimeDesc entries).take limit)

/-- `AgentMemory.has_interacted`: recency-bounded scan of interaction-type
records for an exact `metadata.post_id` match. -/
def memHasInteracted (am : AgentMemoryM) (postId : String)
    (searchLimit : Nat := 200) : Except PyError Bool :=
  match getRecent am searchLimit (some .interaction) with
  | .error e => .error e
  | .ok recent => .ok (recent.any fun m => m.post_id == some postId)

/-- The participant-scope merge loop of `get_context_for_response`: parse each
participant result and append it when its id is not seen yet. -/
def appendParticipant :
    List RawItem → List MemoryEntry → List String → List MemoryEntry
  | [], memories, _ => memories
  | item :: rest, memories, seen =>
    match parseMemoryItem item with
    | some e =>
      if seen.contains e.id then appendParticipant rest memories seen
      else appendParticipant rest (memories ++ [e]) (e.id :: seen)
    | none => appendParticipant rest memories seen

/-- The candidate list assembled by `get_context_for_response` before
formatting: `search(post_content, limit=max_memories + 3)` plus, when a
participant id is supplied, that participant scope's top-3, deduped by id. -/
def contextCandidates (am : AgentMemoryM) (postContent : String)
    (maxMemories : Nat) (participant_id : Option String) :
    Except PyError (List MemoryEntry) :=
  match memSearch am postContent (maxMemories + 3) none with
  | .error e => .error e
  | .ok memories =>
    if pyTruthy participant_id then
      match am.store.searchByUser (participant_id.getD "") postContent 3 with
      | .error e => .error e
      | .ok participantResults =>
        .ok (appendParticipant participantResults memories
          (memories.map MemoryEntry.id))
    else .ok memories

/-- `AgentMemory.get_context_for_response`: assemble the candidates, return
`""` when there are none, otherwise sort by `(score, recency)` descending,
keep those with `relevance_score or 0 >= min_relevance` (at most
`max_memories`) and render the bullet list under a header line. -/
def getContextForResponse (am : AgentMemoryM) (postContent : String)
    (maxMemories : Nat := 5) (participant_id : Option String := none)
    (minRelevance : ℚ := 7/10) : Except PyError String :=
  match contextCandidates am postContent maxMemories participant_id with
  | .error e => .error e
  | .ok memories =>
    if memories.isEmpty then .ok ""
    else
      let sorted := sortByScoreTimeDesc memories
      let kept := (sorted.filter fun m =>
        decide (minRelevance ≤ m.relevance_score.getD 0)).take maxMemories
      .ok (String.intercalate "\n"
        ("Relevant memories:" ::
          kept.map fun m => "- [" ++ m.memory_type.value ++ "] " ++ m.content))

/-- `AgentMemory._is_duplicate_semantic`: resolve the threshold with the
falsy-fallback `threshold or self.dedup_threshold`, never dedupe stripped
content shorter than 10 characters, search top-3 in the one given scope
(returning `False` when no scope is given), answer whether any result's
`score` (default 0) reaches the threshold, and answer `False` when the
backend search raises. -/
def isDuplicateSemantic (am : AgentMemoryM) (content : String)
    (user_id : Option String := none) (agent_id : Option String := none)
    (threshold : Option ℚ := none) : Bool :=
  let th := pyOrQ threshold am.dedup_threshold
  if (pyStrip content).length < 10 then false
  else
    let searched : Option (Except PyError (List RawItem)) :=
      if pyTruthy user_id then
        some (am.store.searchByUser (user_id.getD "") content 3)
      else if pyTruthy agent_id then
        some (am.store.searchByAgent (agent_id.getD "") content 3)
      else none
    match searched with
    | none => false
    | some (.error _) => false
    | some (.ok results) => results.any fun item => decide (th ≤ item.score.getD 0)

/-- A scope key under which `record_interaction` issues an add. -/
inductive ScopeKey where
  | userScope (id : String)
  | agentScope (id : String)
deriving DecidableEq, Repr

/-- One add call issued to the store (scope plus stored content). -/
structure AddCall where
  scope : ScopeKey
  content : String
deriving DecidableEq, Repr

/-- The dictionary returned by `AgentMemory.record_interaction`. -/
structure RecordResult where
  participant_memory_id : Option String
  agent_memory_id : Option String
  skipped_duplicates : Nat
  errors : List String
deriving DecidableEq, Repr

/-- `AgentMemory.record_interaction`: validate that some text is present,
then perform the three independently dedup-guarded writes (participant
content under the participant scope, the agent's response under the agent
scope, a 300-char-truncated participant summary under the agent's user
scope).  Returns the result dictionary together with the list of add calls
actually issued to the store. -/
def recordInteraction (am : AgentMemoryM) (my_response context : String)
    (participant_id : Option String := none) :
    RecordResult × List AddCall :=
  let user_id := pyOrStr participant_id "participant_unknown"
  if context = "" ∧ my_response = "" then
    (⟨none, none, 0, ["no_content"]⟩, [])
  else if pyStrip context = "" ∧ pyStrip my_response = "" then
    (⟨none, none, 0, ["empty_text"]⟩, [])
  else
    let step1 : Option String × List String × Nat × List AddCall :=
      if isDuplicateSemantic am context (some user_id) none none then
        (none, [], 1, [])
      else
        let r := am.store.addByUser user_id context
        (r, if r.isNone then ["participant_memory_add_failed: no_id"] else [],
          0, [⟨.userScope user_id, context⟩])
    let step2 : Option String × List String × Nat × List AddCall :=
      if isDuplicateSemantic am my_response none (some am.agent_id) none then
        (none, [], 1, [])
      else
        let r := am.store.addByAgent am.agent_id my_response
        (r, if r.isNone then ["agent_memory_add_failed: no_id"] else [],
          0, [⟨.agentScope am.agent_id, my_response⟩])
    let summary_content :=
      if 300 < context.length then context.take 300 ++ "..." else context
    let summary_text := "[" ++ user_id ++ "] " ++ summary_content
    let step3 : Nat × List AddCall :=
      if isDuplicateSemantic am summary_text (some am.agent_id) none none then
        (1, [])
      else (0, [⟨.userScope am.agent_id, summary_text⟩])
    (⟨step1.1, step2.1, step1.2.2.1 + step2.2.2.1 + step3.1,
        step1.2.1 ++ step2.2.1⟩,
      step1.2.2.2 ++ step2.2.2.2 ++ step3.2)

/-! ## Publish retry (`_reply_with_retry` in `src/agent/brain.py`) -/

/-- The transient test of `_reply_with_retry` for a `ThreadsAPIError`:
`(e.status_code and e.status_code >= 500) or (e.error_code == 2)`. -/
def isTransient (e : APIError) : Bool :=
  (match e.status_code with
    | some c => decide (500 ≤ c)
    | none => false) || (e.error_code == some 2)

/-- Whether the retry loop sleeps and retries after this exception instead of
re-raising (when attempts remain): transient `ThreadsAPIError`s and every
non-`ThreadsAPIError` exception. -/
def retryable : PyError → Bool
  | .api e => isTransient e
  | .other _ => true

deriving instance DecidableEq for Except

/-- What one run of `_reply_with_retry` did: the returned value or re-raised
exception (`none` only when the loop body never ran, i.e. `max_retries = 0`,
where Python falls off the loop returning `None`), the number of
`reply_to_post` calls made, and the sleeps performed between attempts. -/
structure RetryOutcome where
  result : Option (Except PyError String)
  calls : Nat
  delays : List Nat
deriving DecidableEq, Repr

/-- The loop of `_reply_with_retry`, recursing on the remaining attempts.
`replies n` is the outcome of the n-th `reply_to_post` call (attempts are
numbered from 1); `delay` starts at 1.0 and doubles after every retry. -/
def replyRetryGo (replies : Nat → Except PyError String) (attempt delay : Nat) :
    Nat → RetryOutcome
  | 0 => ⟨none, 0, []⟩
  | remaining + 1 =>
    match replies attempt with
    | .ok s => ⟨some (.ok s), 1, []⟩
    | .error e =>
      if !retryable e || remaining == 0 then ⟨some (.error e), 1, []⟩
      else
        let rest := replyRetryGo replies (attempt + 1) (delay * 2) remaining
        ⟨rest.result, rest.calls + 1, delay :: rest.delays⟩

/-- `_reply_with_retry(max_retries=3)`. -/
def replyWithRetry (replies : Nat → Except PyError String)
    (maxRetries : Nat := 3) : RetryOutcome :=
  replyRetryGo replies 1 1 maxRetries

/-! ## Interaction cycle controller (`AgentBrain` in `src/agent/brain.py`) -/

/-- A candidate post of a cycle's batch (`Post` fields the brain reads). -/
structure Post where
  id : String
  text : Option String := none
  username : Option String := none
deriving DecidableEq, Repr

/-- `InteractionResult`. -/
structure InteractionResult where
  success : Bool
  post_id : String
  response : Option String := none
  reason : String := ""
deriving DecidableEq, Repr

/-- The collaborator calls the claims observe, recorded as a trace.
`replyCall` is tagged with the source post's id and the resolved target id it
was issued against. -/
inductive Event where
  | fetchCall
  | shouldEngageCall (postId : String)
  | generateCall (postId : String)
  | replyCall (originPostId targetId : String)
deriving DecidableEq, Repr

/-- Outcomes of the collaborator calls made while processing one item.
`verify1`/`verify2` are the first and second `verify_persona_adherence`
results as `brain.py` unpacks them (pass flag, score, reason); any failure,
including an unpacking failure, is an error.  `contextResult` bundles the
memory-context and idea-context assembly that precedes generation. -/
structure ItemOracle where
  engage : Except PyError (Bool × String)
  contextResult : Except PyError String
  genResult : Except PyError String
  verify1 : Except PyError (Bool × ℚ × Option String)
  refineResult : Except PyError String
  verify2 : Except PyError (Bool × ℚ × Option String)
  resolveResult : Option String
  getPostCheck : Except PyError Unit
  replies : Nat → Except PyError String
  reflectChance : Bool
  reflectOutcome : Except PyError Unit

/-- Controller configuration. -/
structure BrainCfg where
  maxInteractionsPerCycle : Nat := 5
  observationMode : Bool := false

/-- The environment of one `run_cycle` invocation: the outcome of each
stage-level collaborator call, the cached self username, the batch a fetch
would return, the answer of `memory.has_interacted` per post id, and the
per-item oracles indexed by position in the batch. -/
structure CycleEnv where
  openResult : Except PyError Unit
  selfUsername : Option String := none
  shouldReflect : Except PyError Bool := .ok false
  reflectionResult : Except PyError Unit := .ok ()
  canReply : Except PyError Bool := .ok true
  fetched : List Post := []
  interacted : String → Except PyError Bool
  items : Nat → ItemOracle

/-- The value of `_interact_with_post`: the `InteractionResult`, the adherence
score, the refinement count, plus the trace of observed calls. -/
structure InteractOutcome where
  result : InteractionResult
  score : Option ℚ
  refinements : Nat
  events : List Event
deriving Repr

/-- A failed `InteractionResult`. -/
def failRes (pid reason : String) : InteractionResult :=
  ⟨false, pid, none, reason⟩

/-- The publish path of `_interact_with_post` after the response passed the
adherence check: observation mode records and reports a simulated success;
otherwise resolve the target id, verify the target still exists (404 is the
`reply_target_deleted` terminal, other errors re-raise into the item-level
handler), publish with retry, then record and possibly reflect (a reflection
failure is caught by the item-level handler after the publish succeeded). -/
def publishPath (cfg : BrainCfg) (o : ItemOracle) (p : Post) (response : String)
    (score : ℚ) (refinements : Nat) (ev : List Event) : InteractOutcome :=
  if cfg.observationMode then
    ⟨⟨true, p.id, some response, "simulated"⟩, some score, refinements, ev⟩
  else
    match o.resolveResult with
    | none => ⟨failRes p.id "resolve_post_id_failed", some score, refinements, ev⟩
    | some target =>
      match o.getPostCheck with
      | .error (.api ae) =>
        if ae.status_code == some 404 then
          ⟨failRes p.id "reply_target_deleted", some score, refinements, ev⟩
        else ⟨failRes p.id ae.message, some score, refinements, ev⟩
      | .error (.other m) => ⟨failRes p.id m, some score, refinements, ev⟩
      | .ok _ =>
        let ro := replyWithRetry o.replies 3
        let ev := ev ++ List.replicate ro.calls (Event.replyCall p.id target)
        match ro.result with
        | some (.error e) =>
          ⟨failRes p.id (PyError.msg e), some score, refinements, ev⟩
        | _ =>
          if o.reflectChance then
            match o.reflectOutcome with
            | .error e => ⟨failRes p.id (PyError.msg e), some score, refinements, ev⟩
            | .ok _ =>
              ⟨⟨true, p.id, some response, "success"⟩, some score, refinements, ev⟩
          else ⟨⟨true, p.id, some response, "success"⟩, some score, refinements, ev⟩

/-- `_interact_with_post`: assemble context, generate, check adherence, on
failure refine exactly once and re-check, then publish; every uncaught
exception becomes a failed result carrying `str(e)`. -/
def interactWithPost (cfg : BrainCfg) (o : ItemOracle) (p : Post) :
    InteractOutcome :=
  match o.contextResult with
  | .error e => ⟨failRes p.id (PyError.msg e), none, 0, []⟩
  | .ok _ctx =>
    match o.genResult with
    | .error e => ⟨failRes p.id (PyError.msg e), none, 0, [.generateCall p.id]⟩
    | .ok response =>
      match o.verify1 with
      | .error e => ⟨failRes p.id (PyError.msg e), none, 0, [.generateCall p.id]⟩
      | .ok (passes, score, _reason) =>
        if passes then publishPath cfg o p response score 0 [.generateCall p.id]
        else
          match o.refineResult with
          | .error e =>
            ⟨failRes p.id (PyError.msg e), some score, 0, [.generateCall p.id]⟩
          | .ok refined =>
            match o.verify2 with
            | .error e =>
              ⟨failRes p.id (PyError.msg e), some score, 1, [.generateCall p.id]⟩
            | .ok (passes2, score2, _reason2) =>
              if passes2 then
                publishPath cfg o p refined score2 1 [.generateCall p.id]
              else
                ⟨failRes p.id "persona_adherence_failed", some score2, 1,
                  [.generateCall p.id]⟩

/-- The self-post test of `_get_skip_reason`:
`post.username and self._self_username and post.username == self._self_username`. -/
def selfSkip (selfU : Option String) (p : Post) : Bool :=
  pyTruthy p.username && pyTruthy selfU && (p.username == selfU)

/-- Results and events accumulated by the per-item loop. -/
structure LoopOut where
  results : List InteractionResult
  events : List Event
deriving Repr

/-- The per-item loop of `run_cycle` over the indexed batch, carrying
`interaction_count`.  An exception escaping the loop body
(`has_interacted` or `should_engage` raising) is caught by the cycle-level
handler, which keeps the results accumulated so far: the recursion returns
the empty suffix at that point. -/
def cycleLoop (cfg : BrainCfg) (env : CycleEnv) :
    List (Nat × Post) → Nat → LoopOut
  | [], _ => ⟨[], []⟩
  | (i, p) :: rest, count =>
    if cfg.maxInteractionsPerCycle ≤ count then ⟨[], []⟩
    else if selfSkip env.selfUsername p then cycleLoop cfg env rest count
    else
      match env.interacted p.id with
      | .error _ => ⟨[], []⟩
      | .ok true => cycleLoop cfg env rest count
      | .ok false =>
        let o := env.items i
        match o.engage with
        | .error _ => ⟨[], [.shouldEngageCall p.id]⟩
        | .ok (eng, _reason) =>
          if !eng then
            let r := cycleLoop cfg env rest count
            ⟨r.results, .shouldEngageCall p.id :: r.events⟩
          else if !pyIsDigit p.id then
            let r := cycleLoop cfg env rest count
            ⟨r.results, .shouldEngageCall p.id :: r.events⟩
          else
            let io := interactWithPost cfg o p
            let newCount := if io.result.success then count + 1 else count
            let r := cycleLoop cfg env rest newCount
            ⟨io.result :: r.results, .shouldEngageCall p.id :: (io.events ++ r.events)⟩

/-- What a cycle returned: the result list, the observed call trace, and the
batch the per-item loop ran over (`none` when a setup stage ended the cycle
before a batch was selected). -/
structure CycleOutcome where
  results : List InteractionResult
  events : List Event
  usedBatch : Option (List Post)
deriving Repr

/-- The `try:` body of `run_cycle`: reflection gate, rate-limit gate, batch
selection (`if external_posts:` is falsy for `None` and for an empty list, so
both fall through to the fetch), then the per-item loop.  A stage-level
exception is caught by the cycle-level handler and yields the results
accumulated so far. -/
def runCycleBody (cfg : BrainCfg) (env : CycleEnv)
    (external : Option (List Post)) : CycleOutcome :=
  match env.shouldReflect with
  | .error _ => ⟨[], [], none⟩
  | .ok doReflect =>
    let gate : Except PyError Unit :=
      if doReflect then env.reflectionResult else .ok ()
    match gate with
    | .error _ => ⟨[], [], none⟩
    | .ok _ =>
      match env.canReply with
      | .error _ => ⟨[], [], none⟩
      | .ok false => ⟨[], [], none⟩
      | .ok true =>
        let picked : List Post × List Event :=
          match external with
          | some l => if l.isEmpty then (env.fetched, [.fetchCall]) else (l, [])
          | none => (env.fetched, [.fetchCall])
        let lp := cycleLoop cfg env picked.1.enum 0
        ⟨lp.results, picked.2 ++ lp.events, some picked.1⟩

/-- `AgentBrain.run_cycle`: `_ensure_clients_ready` (which awaits
`threads.open()`) runs before the `try:` block, so its failure propagates to
the caller; everything after is wrapped, and the accumulated result list is
returned on any internal failure. -/
def run_cycle (cfg : BrainCfg) (env : CycleEnv)
    (external : Option (List Post) := none) : Except PyError CycleOutcome :=
  match env.openResult with
  | .error e => .error e
  | .ok _ => .ok (runCycleBody cfg env external)

/-- Number of successful results in a list. -/
def successCount (l : List InteractionResult) : Nat :=
  (l.filter fun r => r.success).length

/-- Whether an event is a `should_engage` call. -/
def isEngageEvent : Event → Bool
  | .shouldEngageCall _ => true
  | _ => false

/-- Number of `should_engage` calls in a trace. -/
def engageCount (l : List Event) : Nat :=
  (l.filter isEngageEvent).length

/-- An item (at position `i` of the batch) that reaches `_interact_with_post`
and succeeds there: it is not a self-post, `has_interacted` answers no, the
engagement decision is a yes, its id is numeric (publishable), and the
interaction attempt returns a successful result. -/
def eligibleAt (cfg : BrainCfg) (env : CycleEnv) (i : Nat) (p : Post) : Prop :=
  selfSkip env.selfUsername p = false ∧
  env.interacted p.id = .ok false ∧
  (∃ reason, (env.items i).engage = .ok (true, reason)) ∧
  pyIsDigit p.id = true ∧
  (interactWithPost cfg (env.items i) p).result.success = true

/-! ## Concrete instances used by counterexamples and witnesses -/

/-- A store whose reads return nothing and whose adds report no id. -/
def idleStore : Mem0 where
  searchByUser := fun _ _ _ => .ok []
  searchByAgent := fun _ _ _ => .ok []
  getAllByUser := fun _ _ => .ok []
  getAllByAgent := fun _ _ => .ok []
  addByUser := fun _ _ => none
  addByAgent := fun _ _ => none

/-- An `AgentMemory` over the idle store. -/
def amIdle : AgentMemoryM := ⟨idleStore, "alex", 17/20⟩

/-- A raw backend item with similarity score 0.5. -/
def itemHalf : RawItem := { id := "m1", memory := "existing note", score := some (1/2) }

/-- The entry `itemHalf` parses to. -/
def entryHalf : MemoryEntry :=
  ⟨"m1", "existing note", .obsv, 0, false, none, some (1/2)⟩

/-- A store where both scopes return `itemHalf` for every search. -/
def storeHalf : Mem0 where
  searchByUser := fun _ _ _ => .ok [itemHalf]
  searchByAgent := fun _ _ _ => .ok [itemHalf]
  getAllByUser := fun _ _ => .ok [itemHalf]
  getAllByAgent := fun _ _ => .ok [itemHalf]
  addByUser := fun _ _ => some "new1"
  addByAgent := fun _ _ => some "new2"

/-- An `AgentMemory` over `storeHalf`. -/
def amHalf : AgentMemoryM := ⟨storeHalf, "alex", 17/20⟩

/-- A raw backend item with similarity score 0.9 (above the 0.85 default). -/
def itemHigh : RawItem := { id := "m2", memory := "very similar", score := some (9/10) }

/-- A store where both scopes return `itemHigh` for every search. -/
def storeHigh : Mem0 where
  searchByUser := fun _ _ _ => .ok [itemHigh]
  searchByAgent := fun _ _ _ => .ok [itemHigh]
  getAllByUser := fun _ _ => .ok []
  getAllByAgent := fun _ _ => .ok []
  addByUser := fun _ _ => some "new1"
  addByAgent := fun _ _ => some "new2"

/-- An `AgentMemory` over `storeHigh`. -/
def amHigh : AgentMemoryM := ⟨storeHigh, "alex", 17/20⟩

/-- Publish attempts that fail once with a plain connection error (not a
`ThreadsAPIError`, hence outside the claimed transient class) and then
succeed. -/
def repliesOther : Nat → Except PyError String := fun n =>
  if n == 1 then .error (.other "connection reset") else .ok "reply_id"

/-- Publish attempts that fail once with a 503 `ThreadsAPIError` and then
succeed. -/
def repliesTransient : Nat → Except PyError String := fun n =>
  if n == 1 then .error (.api ⟨"server error", some 503, none⟩) else .ok "reply_id"

/-- An item oracle that declines to engage and otherwise behaves benignly. -/
def idleOracle : ItemOracle where
  engage := .ok (false, "not relevant")
  contextResult := .ok ""
  genResult := .ok ""
  verify1 := .ok (true, 1, none)
  refineResult := .ok ""
  verify2 := .ok (true, 1, none)
  resolveResult := none
  getPostCheck := .ok ()
  replies := fun _ => .ok "reply_id"
  reflectChance := false
  reflectOutcome := .ok ()

/-- An item oracle whose every stage succeeds on the first try. -/
def goodOracle : ItemOracle where
  engage := .ok (true, "interest_match")
  contextResult := .ok ""
  genResult := .ok "hello there"
  verify1 := .ok (true, 9/10, none)
  refineResult := .ok "unused"
  verify2 := .ok (true, 1, none)
  resolveResult := some "1"
  getPostCheck := .ok ()
  replies := fun _ => .ok "reply_id"
  reflectChance := false
  reflectOutcome := .ok ()

/-- An item oracle whose adherence check fails both before and after the one
refinement. -/
def failOracle : ItemOracle where
  engage := .ok (true, "interest_match")
  contextResult := .ok ""
  genResult := .ok "first draft"
  verify1 := .ok (false, 2/5, some "off persona")
  refineResult := .ok "second draft"
  verify2 := .ok (false, 1/2, some "still off")
  resolveResult := some "1"
  getPostCheck := .ok ()
  replies := fun _ => .ok "reply_id"
  reflectChance := false
  reflectOutcome := .ok ()

/-- Candidate posts with numeric ids. -/
def postOne : Post := ⟨"1", some "hi", some "alice"⟩

/-- A second candidate post. -/
def postTwo : Post := ⟨"2", some "yo", some "bob"⟩

/-- A post whose id the memory already holds an interaction for. -/
def postSeven : Post := ⟨"7", some "seen before", some "carol"⟩

/-- An environment whose `threads.open()` raises. -/
def envOpenFail : CycleEnv where
  openResult := .error (.other "connection failed")
  interacted := fun _ => .ok false
  items := fun _ => idleOracle

/-- An environment where `has_interacted` answers yes for every id. -/
def envAllInteracted : CycleEnv where
  openResult := .ok ()
  interacted := fun _ => .ok true
  items := fun _ => idleOracle

/-- An environment where every item is fresh and every stage succeeds. -/
def envEager : CycleEnv where
  openResult := .ok ()
  interacted := fun _ => .ok false
  items := fun _ => goodOracle

/-- An environment where every item is fresh but engagement is declined. -/
def envQuiet : CycleEnv where
  openResult := .ok ()
  interacted := fun _ => .ok false
  items := fun _ => idleOracle

/-- Observation-mode configuration with a per-cycle cap of 1. -/
def cfgObs1 : BrainCfg := ⟨1, true⟩

/-- The outcome of the capped eager cycle (used by the cap witness). -/
def outEager : CycleOutcome := runCycleBody cfgObs1 envEager (some [postOne, postTwo])

/-- The outcome of a quiet cycle over one supplied post (used by the
external-batch witness). -/
def outQuiet : CycleOutcome := runCycleBody {} envQuiet (some [postOne])

/-! ## Helper lemmas -/

theorem orderedInsertBy_perm (le : α → α → Bool) (a : α) (l : List α) :
    (orderedInsertBy le a l).Perm (a :: l) := by
  induction l with
  | nil => simp [orderedInsertBy]
  | cons b l ih =>
    unfold orderedInsertBy
    by_cases h : le a b = true
    · rw [if_pos h]
    · rw [if_neg h]
      exact (ih.cons b).trans (List.Perm.swap a b l)

theorem stableSortBy_perm (le : α → α → Bool) (l : List α) :
    (stableSortBy le l).Perm l := by
  induction l with
  | nil => simp [stableSortBy]
  | cons a l ih =>
    unfold stableSortBy
    exact (orderedInsertBy_perm le a _).trans (ih.cons a)

theorem parseMemoryItem_id {item : RawItem} {f : Option MemoryType} {inc : Bool}
    {e : MemoryEntry} (h : parseMemoryItem item f inc = some e) : e.id = item.id := by
  unfold parseMemoryItem at h
  split at h
  · simp at h
  · split at h
    · split at h
      · simp only [Option.some.injEq] at h
        subst h
        rfl
      · simp at h
    · simp only [Option.some.injEq] at h
      subst h
      rfl

theorem mergeParse_mem_not_seen (f : Option MemoryType) :
    ∀ (items : List RawItem) (seen : List String),
      ∀ e ∈ mergeParse f items seen, e.id ∉ seen := by
  intro items
  induction items with
  | nil => intro seen e he; simp [mergeParse] at he
  | cons item rest ih =>
    intro seen e he
    unfold mergeParse at he
    by_cases hc : seen.contains item.id = true
    · rw [if_pos hc] at he
      exact ih seen e he
    · rw [if_neg hc] at he
      cases hp : parseMemoryItem item f with
      | some e1 =>
        rw [hp] at he
        rcases List.mem_cons.mp he with rfl | hmem
        · rw [parseMemoryItem_id hp]
          intro hin
          exact hc (by simpa using hin)
        · exact fun hin => ih _ e hmem (List.mem_cons_of_mem _ hin)
      | none =>
        rw [hp] at he
        exact fun hin => ih _ e he (List.mem_cons_of_mem _ hin)

theorem mergeParse_nodup (f : Option MemoryType) :
    ∀ (items : List RawItem) (seen : List String),
      ((mergeParse f items seen).map MemoryEntry.id).Nodup := by
  intro items
  induction items with
  | nil => intro seen; simp [mergeParse]
  | cons item rest ih =>
    intro seen
    unfold mergeParse
    by_cases hc : seen.contains item.id = true
    · rw [if_pos hc]; exact ih seen
    · rw [if_neg hc]
      cases hp : parseMemoryItem item f with
      | none => exact ih _
      | some e1 =>
        simp only [List.map_cons, List.nodup_cons]
        refine ⟨?_, ih _⟩
        intro hmem
        rcases List.mem_map.mp hmem with ⟨e2, he2, heq⟩
        apply mergeParse_mem_not_seen f rest (item.id :: seen) e2 he2
        rw [heq, parseMemoryItem_id hp]
        exact List.mem_cons_self _ _

theorem nodup_ids_of_perm {l1 l2 : List MemoryEntry} (h : l1.Perm l2)
    (hn : (l2.map MemoryEntry.id).Nodup) : (l1.map MemoryEntry.id).Nodup :=
  ((h.map MemoryEntry.id).nodup_iff).mpr hn

theorem nodup_ids_take (l : List MemoryEntry) (n : Nat)
    (h : (l.map MemoryEntry.id).Nodup) : ((l.take n).map MemoryEntry.id).Nodup := by
  rw [List.map_take]
  exact h.sublist (List.take_sublist _ _)

theorem memSearch_nodup (am : AgentMemoryM) (q : String) (limit : Nat)
    (mt : Option MemoryType) (l : List MemoryEntry)
    (h : memSearch am q limit mt = .ok l) : (l.map MemoryEntry.id).Nodup := by
  unfold memSearch at h
  cases h1 : am.store.searchByAgent am.agent_id q limit with
  | error e => rw [h1] at h; simp at h
  | ok ag =>
    rw [h1] at h
    cases h2 : am.store.searchByUser am.agent_id q limit with
    | error e => rw [h2] at h; simp at h
    | ok us =>
      rw [h2] at h
      simp only [Except.ok.injEq] at h
      subst h
      exact nodup_ids_take _ _
        (nodup_ids_of_perm (stableSortBy_perm _ _) (mergeParse_nodup _ _ _))

theorem getRecent_nodup (am : AgentMemoryM) (limit : Nat)
    (mt : Option MemoryType) (l : List MemoryEntry)
    (h : getRecent am limit mt = .ok l) : (l.map MemoryEntry.id).Nodup := by
  unfold getRecent at h
  cases h1 : am.store.getAllByAgent am.agent_id (limit * 2) with
  | error e => rw [h1] at h; simp at h
  | ok ag =>
    rw [h1] at h
    cases h2 : am.store.getAllByUser am.agent_id (limit * 2) with
    | error e => rw [h2] at h; simp at h
    | ok us =>
      rw [h2] at h
      simp only [Except.ok.injEq] at h
      subst h
      exact nodup_ids_take _ _
        (nodup_ids_of_perm (stableSortBy_perm _ _) (mergeParse_nodup _ _ _))

theorem appendParticipant_nodup :
    ∀ (items : List RawItem) (memories : List MemoryEntry) (seen : List String),
      (memories.map MemoryEntry.id).Nodup →
      (∀ m ∈ memories, m.id ∈ seen) →
      ((appendParticipant items memories seen).map MemoryEntry.id).Nodup := by
  intro items
  induction items with
  | nil => intro memories seen hn _; simpa [appendParticipant] using hn
  | cons item rest ih =>
    intro memories seen hn hsub
    unfold appendParticipant
    split
    · rename_i e hp
      split
      · exact ih memories seen hn hsub
      · rename_i hc
        apply ih
        · rw [List.map_append]
          apply List.Nodup.append hn (by simp)
          intro x hx hx2
          simp only [List.map_cons, List.map_nil, List.mem_singleton] at hx2
          subst hx2
          rcases List.mem_map.mp hx with ⟨m, hm, hid⟩
          apply hc
          have hin : e.id ∈ seen := hid ▸ hsub m hm
          simpa using hin
        · intro m hm
          rcases List.mem_append.mp hm with hm | hm
          · exact List.mem_cons_of_mem _ (hsub m hm)
          · simp only [List.mem_singleton] at hm
            subst hm
            exact List.mem_cons_self _ _
    · exact ih memories seen hn hsub

theorem contextCandidates_nodup (am : AgentMemoryM) (q : String) (mm : Nat)
    (pid : Option String) (l : List MemoryEntry)
    (h : contextCandidates am q mm pid = .ok l) : (l.map MemoryEntry.id).Nodup := by
  unfold contextCandidates at h
  split at h
  · exact absurd h (by simp)
  · rename_i mems h1
    have hn := memSearch_nodup am q (mm + 3) none mems h1
    split at h
    · split at h
      · exact absurd h (by simp)
      · rename_i pres h2
        simp only [Except.ok.injEq] at h
        subst h
        exact appendParticipant_nodup pres mems _ hn
          (fun m hm => List.mem_map_of_mem _ hm)
    · simp only [Except.ok.injEq] at h
      subst h
      exact hn

/-- C7: every cross-scope retrieval operation — `search`, `get_recent`, and
the context-assembly candidate list (including the extra participant scope) —
returns a list whose entry ids are pairwise distinct, even when the
contributing scopes both return an entry with the same id. -/
theorem crossScope_nodup (am : AgentMemoryM) :
    (∀ q limit mt l, memSearch am q limit mt = .ok l →
      (l.map MemoryEntry.id).Nodup) ∧
    (∀ limit mt l, getRecent am limit mt = .ok l →
      (l.map MemoryEntry.id).Nodup) ∧
    (∀ q mm pid l, contextCandidates am q mm pid = .ok l →
      (l.map MemoryEntry.id).Nodup) :=
  ⟨fun q limit mt l h => memSearch_nodup am q limit mt l h,
   fun limit mt l h => getRecent_nodup am limit mt l h,
   fun q mm pid l h => contextCandidates_nodup am q mm pid l h⟩

/-- C7 witness: over a store where both scopes return the entry `m1`, the
merged `search` result holds it once, with distinct ids. -/
theorem crossScope_nodup_witness :
    (([entryHalf] : List MemoryEntry).map MemoryEntry.id).Nodup :=
  (crossScope_nodup amHalf).1 "q" 10 none [entryHalf] rfl

/-- C6 counterexample: over `amHalf` the merged candidate list holds one entry
with relevance 0.5, below the 0.7 threshold, so nothing qualifies — yet
`get_context_for_response` returns the non-empty placeholder
`"Relevant memories:"` instead of the empty string the claim requires. -/
theorem getContext_below_threshold_not_empty :
    getContextForResponse amHalf "query" 5 none (7/10) = .ok "Relevant memories:" ∧
    "Relevant memories:" ≠ "" := by
  constructor
  · have hres : contextCandidates amHalf "query" 5 none = .ok [entryHalf] := rfl
    have hfil : (decide ((7/10 : ℚ) ≤ entryHalf.relevance_score.getD 0)) = false := by
      norm_num [entryHalf]
    simp only [getContextForResponse, hres, List.isEmpty_cons, Bool.false_eq_true,
      if_false, sortByScoreTimeDesc, stableSortBy, orderedInsertBy,
      List.filter, hfil]
    rfl
  · decide

/-- C6 (amended): `get_context_for_response` returns the empty string (never
null) exactly when the merged candidate list is empty; when candidates exist
but every relevance score is below `min_relevance`, it returns the bare
header `"Relevant memories:"` with no entries — a non-empty placeholder. -/
theorem getContextForResponse_empty_or_header (am : AgentMemoryM) (q : String)
    (mm : Nat) (pid : Option String) (minRel : ℚ) :
    (contextCandidates am q mm pid = .ok [] →
      getContextForResponse am q mm pid minRel = .ok "") ∧
    (∀ l, contextCandidates am q mm pid = .ok l → l ≠ [] →
      (∀ e ∈ l, e.relevance_score.getD 0 < minRel) →
      getContextForResponse am q mm pid minRel = .ok "Relevant memories:") := by
  constructor
  · intro h
    simp [getContextForResponse, h]
  · intro l h hne hlow
    have hfilter : (sortByScoreTimeDesc l).filter
        (fun m => decide (minRel ≤ m.relevance_score.getD 0)) = [] := by
      apply List.filter_eq_nil_iff.mpr
      intro a ha
      have hal : a ∈ l :=
        (stableSortBy_perm ctxBefore l).mem_iff.mp
          (by simpa [sortByScoreTimeDesc] using ha)
      simp only [decide_eq_true_eq]
      exact not_le.mpr (hlow a hal)
    cases l with
    | nil => exact absurd rfl hne
    | cons x xs =>
      simp [getContextForResponse, h, hfilter]
      rfl

/-- C6 witness: a candidate list with a single entry scoring 0.5 against the
0.7 threshold produces the bare header. -/
theorem getContextForResponse_empty_or_header_witness :
    getContextForResponse amHalf "q" 5 none (7/10) = .ok "Relevant memories:" :=
  (getContextForResponse_empty_or_header amHalf "q" 5 none (7/10)).2 [entryHalf] rfl
    (by simp) (by intro e he; simp at he; subst he; norm_num [entryHalf])

theorem isDup_short (am : AgentMemoryM) (content : String)
    (uid aid : Option String) (t : Option ℚ)
    (h : (pyStrip content).length < 10) :
    isDuplicateSemantic am content uid aid t = false := by
  simp [isDuplicateSemantic, h]

theorem isDup_no_scope (am : AgentMemoryM) (content : String) (t : Option ℚ)
    (u : Option String) (hu : pyTruthy u = false) :
    isDuplicateSemantic am content u none t = false := by
  unfold isDuplicateSemantic
  by_cases hlen : (pyStrip content).length < 10
  · simp [hlen]
  · simp [hlen, hu]
    simp [pyTruthy]

theorem isDup_user_err (am : AgentMemoryM) (content u : String) (t : Option ℚ)
    (e : PyError) (hu : u ≠ "") (hlen : ¬((pyStrip content).length < 10))
    (he : am.store.searchByUser u content 3 = .error e) :
    isDuplicateSemantic am content (some u) none t = false := by
  have hu' : pyTruthy (some u) = true := by simp [pyTruthy, hu]
  unfold isDuplicateSemantic
  simp [hlen, hu', he]

theorem isDup_user_ok (am : AgentMemoryM) (content u : String) (t : Option ℚ)
    (res : List RawItem) (hu : u ≠ "") (hlen : ¬((pyStrip content).length < 10))
    (hres : am.store.searchByUser u content 3 = .ok res) :
    isDuplicateSemantic am content (some u) none t =
      res.any fun item =>
        decide (pyOrQ t am.dedup_threshold ≤ item.score.getD 0) := by
  have hu' : pyTruthy (some u) = true := by simp [pyTruthy, hu]
  unfold isDuplicateSemantic
  simp [hlen, hu', hres]

/-- C8 (amended): the semantic-duplicate check answers true iff some top-3
result of the searched scope scores at least the effective threshold, where
the effective threshold is the supplied one unless it is absent or `0.0` — a
zero threshold falls back to the 0.85 default through the `or` expression;
content whose stripped length is under 10 is never a duplicate; a backend
error answers false; and raising the threshold among positive values can only
turn true into false. -/
theorem isDuplicateSemantic_spec (am : AgentMemoryM) (content u : String)
    (t : Option ℚ) :
    ((pyStrip content).length < 10 →
      isDuplicateSemantic am content (some u) none t = false) ∧
    (u ≠ "" → ¬((pyStrip content).length < 10) →
      (∀ e, am.store.searchByUser u content 3 = .error e →
        isDuplicateSemantic am content (some u) none t = false) ∧
      (∀ res, am.store.searchByUser u content 3 = .ok res →
        isDuplicateSemantic am content (some u) none t =
          res.any fun item =>
            decide (pyOrQ t am.dedup_threshold ≤ item.score.getD 0))) ∧
    (∀ t1 t2 : ℚ, 0 < t1 → t1 ≤ t2 →
      isDuplicateSemantic am content (some u) none (some t2) = true →
      isDuplicateSemantic am content (some u) none (some t1) = true) := by
  refine ⟨?_, ?_, ?_⟩
  · intro h
    exact isDup_short am content (some u) none t h
  · intro hu hlen
    exact ⟨fun e he => isDup_user_err am content u t e hu hlen he,
           fun res hres => isDup_user_ok am content u t res hu hlen hres⟩
  · intro t1 t2 ht1 ht12 h2
    by_cases hu : u = ""
    · rw [isDup_no_scope am content (some t2) (some u)
        (by simp [pyTruthy, hu])] at h2
      cases h2
    · by_cases hlen : (pyStrip content).length < 10
      · rw [isDup_short am content (some u) none (some t2) hlen] at h2
        cases h2
      · cases hres : am.store.searchByUser u content 3 with
        | error e =>
          rw [isDup_user_err am content u (some t2) e hu hlen hres] at h2
          cases h2
        | ok res =>
          rw [isDup_user_ok am content u (some t2) res hu hlen hres] at h2
          rw [isDup_user_ok am content u (some t1) res hu hlen hres]
          have ht2 : (0 : ℚ) < t2 := lt_of_lt_of_le ht1 ht12
          have e2 : pyOrQ (some t2) am.dedup_threshold = t2 := by
            simp [pyOrQ, (ne_of_gt ht2)]
          have e1 : pyOrQ (some t1) am.dedup_threshold = t1 := by
            simp [pyOrQ, (ne_of_gt ht1)]
          rw [e2] at h2
          rw [e1]
          rcases List.any_eq_true.mp h2 with ⟨item, hitem, hscore⟩
          refine List.any_eq_true.mpr ⟨item, hitem, ?_⟩
          simp only [decide_eq_true_eq] at hscore ⊢
          exact le_trans ht12 hscore

/-- C8 counterexample: with a fixed top-3 result of score 0.5, the explicit
threshold `0.0` falls back to the 0.85 default through
`threshold or self.dedup_threshold`, so the check answers false although the
result's score reaches the supplied threshold — and raising the threshold
from 0 to 0.5 turns the answer from false to true, which the claim's
monotonicity forbids.  Also, content of raw length 14 whose stripped length
is 6 is never reported duplicate even though a result scores 0.9 ≥ 0.85. -/
theorem isDuplicateSemantic_zero_threshold :
    isDuplicateSemantic amHalf "0123456789" (some "participant_x") none (some 0)
      = false ∧
    isDuplicateSemantic amHalf "0123456789" (some "participant_x") none
      (some (1/2)) = true ∧
    isDuplicateSemantic amHigh "    abcdef    " (some "participant_x") none none
      = false := by
  refine ⟨?_, ?_, ?_⟩
  · rw [isDup_user_ok amHalf "0123456789" "participant_x" (some 0) [itemHalf]
      (by decide) (by decide) rfl]
    norm_num [itemHalf, pyOrQ, amHalf]
  · rw [isDup_user_ok amHalf "0123456789" "participant_x" (some (1/2)) [itemHalf]
      (by decide) (by decide) rfl]
    norm_num [itemHalf, pyOrQ]
  · exact isDup_short amHigh "    abcdef    " (some "participant_x") none none
      (by decide)

/-- C8 witness: with the default threshold and a fixed result scoring 0.5,
the check reports no duplicate (0.5 < 0.85). -/
theorem isDuplicateSemantic_spec_witness :
    isDuplicateSemantic amHalf "0123456789" (some "participant_x") none none
      = false := by
  have h := (isDuplicateSemantic_spec amHalf "0123456789" "participant_x"
    none).2.1 (by decide) (by decide)
  rw [h.2 [itemHalf] rfl]
  norm_num [itemHalf, pyOrQ, amHalf]

/-- C10: when both `context` and `my_response` are empty or whitespace-only,
`record_interaction` returns immediately with null ids, zero skipped
duplicates and a non-empty error list, and issues no add call in any scope. -/
theorem recordInteraction_blank (am : AgentMemoryM) (my_response context : String)
    (pid : Option String) (hc : pyStrip context = "")
    (hr : pyStrip my_response = "") :
    (recordInteraction am my_response context pid).1.participant_memory_id = none ∧
    (recordInteraction am my_response context pid).1.agent_memory_id = none ∧
    (recordInteraction am my_response context pid).1.skipped_duplicates = 0 ∧
    (recordInteraction am my_response context pid).1.errors ≠ [] ∧
    (recordInteraction am my_response context pid).2 = [] := by
  unfold recordInteraction
  by_cases h1 : context = "" ∧ my_response = ""
  · simp [h1]
  · simp [h1, hc, hr]

/-- C10 witness: a whitespace-only context and an empty response produce the
immediate no-write return. -/
theorem recordInteraction_blank_witness :
    (recordInteraction amIdle "" " " none).1.participant_memory_id = none ∧
    (recordInteraction amIdle "" " " none).1.agent_memory_id = none ∧
    (recordInteraction amIdle "" " " none).1.skipped_duplicates = 0 ∧
    (recordInteraction amIdle "" " " none).1.errors ≠ [] ∧
    (recordInteraction amIdle "" " " none).2 = [] :=
  recordInteraction_blank amIdle "" " " none (by decide) (by decide)

theorem replyRetryGo_spec (replies : Nat → Except PyError String) :
    ∀ (r a d : Nat), 1 ≤ r →
      1 ≤ (replyRetryGo replies a d r).calls ∧
      (replyRetryGo replies a d r).calls ≤ r ∧
      (∀ i, a ≤ i → i < a + (replyRetryGo replies a d r).calls - 1 →
        ∃ e, replies i = .error e ∧ retryable e = true) ∧
      (replyRetryGo replies a d r).result =
        some (replies (a + (replyRetryGo replies a d r).calls - 1)) ∧
      (replyRetryGo replies a d r).delays =
        (List.range ((replyRetryGo replies a d r).calls - 1)).map
          (fun k => d * 2 ^ k) := by
  intro r
  induction r with
  | zero => intro a d h; omega
  | succ n ih =>
    intro a d _
    cases hra : replies a with
    | ok s =>
      have hstep : replyRetryGo replies a d (n + 1) = ⟨some (.ok s), 1, []⟩ := by
        conv_lhs => unfold replyRetryGo
        simp [hra]
      rw [hstep]
      dsimp only
      refine ⟨le_refl 1, by omega, ?_, ?_, by simp⟩
      · intro i hi1 hi2
        omega
      · have heq : a + 1 - 1 = a := by omega
        rw [heq, hra]
    | error e =>
      by_cases hret : (!retryable e || n == 0) = true
      · have hstep : replyRetryGo replies a d (n + 1)
            = ⟨some (.error e), 1, []⟩ := by
          conv_lhs => unfold replyRetryGo
          simp only [hra, hret, if_true]
        rw [hstep]
        dsimp only
        refine ⟨le_refl 1, by omega, ?_, ?_, by simp⟩
        · intro i hi1 hi2
          omega
        · have heq : a + 1 - 1 = a := by omega
          rw [heq, hra]
      · have hretr : retryable e = true := by
          rcases Bool.or_eq_false_iff.mp (Bool.eq_false_iff.mpr hret) with ⟨ha, _⟩
          simpa using ha
        have hn0 : ¬(n = 0) := by
          rcases Bool.or_eq_false_iff.mp (Bool.eq_false_iff.mpr hret) with ⟨_, hb⟩
          simpa using hb
        have hn : 1 ≤ n := by omega
        obtain ⟨h1, h2, h3, h4, h5⟩ := ih (a + 1) (d * 2) hn
        have hstep : replyRetryGo replies a d (n + 1) =
            ⟨(replyRetryGo replies (a + 1) (d * 2) n).result,
             (replyRetryGo replies (a + 1) (d * 2) n).calls + 1,
             d :: (replyRetryGo replies (a + 1) (d * 2) n).delays⟩ := by
          conv_lhs => unfold replyRetryGo
          simp [hra, hretr, hn0]
        rw [hstep]
        dsimp only
        refine ⟨by omega, by omega, ?_, ?_, ?_⟩
        · intro i hi1 hi2
          rcases Nat.lt_or_ge a i with hai | hai
          · exact h3 i (by omega) (by omega)
          · have hia : i = a := by omega
            subst hia
            exact ⟨e, hra, hretr⟩
        · rw [h4]
          have heq : a + 1 + (replyRetryGo replies (a + 1) (d * 2) n).calls - 1 =
              a + ((replyRetryGo replies (a + 1) (d * 2) n).calls + 1) - 1 := by
            omega
          rw [heq]
        · rw [h5]
          obtain ⟨m, hm⟩ : ∃ m, (replyRetryGo replies (a + 1) (d * 2) n).calls
              = m + 1 :=
            ⟨(replyRetryGo replies (a + 1) (d * 2) n).calls - 1, by omega⟩
          rw [hm]
          simp only [Nat.add_sub_cancel, List.range_succ_eq_map, List.map_cons,
            List.map_map]
          congr 1
          · simp
          · apply List.map_congr_left
            intro k _
            simp only [Function.comp_apply, pow_succ]
            ring

/-- C4 (amended): `_reply_with_retry(max_retries=3)` makes between 1 and 3
`reply_to_post` calls; every non-final call failed with an error the loop
retries — a transient `ThreadsAPIError` (status ≥ 500 or error code 2) or any
non-`ThreadsAPIError` exception, which the code also retries; the final
call's outcome is returned or re-raised as-is; the sleeps between attempts
start at 1 second and double each time; and a non-transient
`ThreadsAPIError` on the first attempt propagates immediately, after exactly
one call and no sleep. -/
theorem replyWithRetry_spec (replies : Nat → Except PyError String) :
    1 ≤ (replyWithRetry replies 3).calls ∧
    (replyWithRetry replies 3).calls ≤ 3 ∧
    (∀ i, 1 ≤ i → i < (replyWithRetry replies 3).calls →
      ∃ e, replies i = .error e ∧ retryable e = true) ∧
    (replyWithRetry replies 3).result =
      some (replies (replyWithRetry replies 3).calls) ∧
    (replyWithRetry replies 3).delays =
      (List.range ((replyWithRetry replies 3).calls - 1)).map (fun k => 2 ^ k) ∧
    (∀ ae, replies 1 = .error (.api ae) → isTransient ae = false →
      replyWithRetry replies 3 = ⟨some (.error (.api ae)), 1, []⟩) := by
  obtain ⟨h1, h2, h3, h4, h5⟩ := replyRetryGo_spec replies 3 1 1 (by omega)
  unfold replyWithRetry
  refine ⟨h1, h2, ?_, ?_, ?_, ?_⟩
  · intro i hi1 hi2
    exact h3 i hi1 (by omega)
  · have heq : 1 + (replyRetryGo replies 1 1 3).calls - 1 =
        (replyRetryGo replies 1 1 3).calls := by omega
    rw [h4, heq]
  · rw [h5]
    apply List.map_congr_left
    intro k _
    rw [one_mul]
  · intro ae hae htrans
    unfold replyRetryGo
    simp [hae, retryable, htrans]

/-- C4 counterexample: the first publish attempt fails with a plain connection
error — not a `ThreadsAPIError`, hence outside the claimed transient class
(status ≥ 500 or the platform error code) — yet `_reply_with_retry` does not
propagate it: it sleeps and retries, and the second call succeeds.  So an
error outside the transient class does not always propagate immediately. -/
theorem replyWithRetry_retries_unknown_error :
    replyWithRetry repliesOther 3 = ⟨some (.ok "reply_id"), 2, [1]⟩ ∧
    repliesOther 1 = .error (.other "connection reset") :=
  ⟨rfl, rfl⟩

/-- C4 witness: a 503 failure on the first attempt is an error the loop
retries. -/
theorem replyWithRetry_spec_witness :
    ∃ e, repliesTransient 1 = .error e ∧ retryable e = true :=
  (replyWithRetry_spec repliesTransient).2.2.1 1 (by decide) (by decide)

theorem mem_append_replicate {e x : Event} {ev : List Event} {k : Nat}
    (he : e ∈ ev ++ List.replicate k x) : e ∈ ev ∨ e = x := by
  rcases List.mem_append.mp he with h | h
  · exact Or.inl h
  · exact Or.inr (List.mem_replicate.mp h).2

theorem publishPath_post_id (cfg : BrainCfg) (o : ItemOracle) (p : Post)
    (response : String) (score : ℚ) (refinements : Nat) (ev : List Event) :
    (publishPath cfg o p response score refinements ev).result.post_id = p.id := by
  unfold publishPath failRes
  dsimp only
  repeat' split
  all_goals rfl

theorem publishPath_refinements (cfg : BrainCfg) (o : ItemOracle) (p : Post)
    (response : String) (score : ℚ) (refinements : Nat) (ev : List Event) :
    (publishPath cfg o p response score refinements ev).refinements
      = refinements := by
  unfold publishPath failRes
  dsimp only
  repeat' split
  all_goals rfl

theorem publishPath_events_sub (cfg : BrainCfg) (o : ItemOracle) (p : Post)
    (response : String) (score : ℚ) (refinements : Nat) (ev : List Event) :
    ∀ e ∈ (publishPath cfg o p response score refinements ev).events,
      e ∈ ev ∨ ∃ t, e = Event.replyCall p.id t := by
  intro e he
  unfold publishPath at he
  dsimp only at he
  repeat' split at he
  all_goals
    first
    | exact Or.inl he
    | (rcases mem_append_replicate he with h1 | h1
       · exact Or.inl h1
       · exact Or.inr ⟨_, h1⟩)

theorem interactWithPost_post_id (cfg : BrainCfg) (o : ItemOracle) (p : Post) :
    (interactWithPost cfg o p).result.post_id = p.id := by
  unfold interactWithPost failRes
  repeat' split
  all_goals first | rfl | apply publishPath_post_id

theorem interactWithPost_refinements_le (cfg : BrainCfg) (o : ItemOracle)
    (p : Post) : (interactWithPost cfg o p).refinements ≤ 1 := by
  unfold interactWithPost
  repeat' split
  all_goals try rw [publishPath_refinements]
  all_goals try dsimp only
  all_goals omega

theorem interactWithPost_events_shape (cfg : BrainCfg) (o : ItemOracle)
    (p : Post) :
    ∀ e ∈ (interactWithPost cfg o p).events,
      e = Event.generateCall p.id ∨ ∃ t, e = Event.replyCall p.id t := by
  intro e he
  unfold interactWithPost at he
  repeat' split at he
  all_goals try dsimp only at he
  all_goals
    first
    | exact absurd he (List.not_mem_nil e)
    | (simp only [List.mem_singleton] at he; exact Or.inl he)
    | (rcases publishPath_events_sub _ _ _ _ _ _ _ e he with h1 | h1
       · simp only [List.mem_singleton] at h1
         exact Or.inl h1
       · exact Or.inr h1)

theorem interactWithPost_no_engage (cfg : BrainCfg) (o : ItemOracle) (p : Post) :
    engageCount (interactWithPost cfg o p).events = 0 := by
  have hnil : (interactWithPost cfg o p).events.filter isEngageEvent = [] := by
    apply List.filter_eq_nil_iff.mpr
    intro a ha
    rcases interactWithPost_events_shape cfg o p a ha with h | ⟨t, h⟩ <;>
      subst h <;> simp [isEngageEvent]
  simp [engageCount, hnil]

theorem interactWithPost_no_fetch (cfg : BrainCfg) (o : ItemOracle) (p : Post) :
    Event.fetchCall ∉ (interactWithPost cfg o p).events := by
  intro h
  rcases interactWithPost_events_shape cfg o p _ h with h1 | ⟨t, h1⟩ <;>
    exact Event.noConfusion h1

theorem cycleLoop_cap {cfg : BrainCfg} {env : CycleEnv} {i : Nat} {p : Post}
    {rest : List (Nat × Post)} {count : Nat}
    (h : cfg.maxInteractionsPerCycle ≤ count) :
    cycleLoop cfg env ((i, p) :: rest) count = ⟨[], []⟩ := by
  conv_lhs => unfold cycleLoop
  rw [if_pos h]

theorem cycleLoop_self {cfg : BrainCfg} {env : CycleEnv} {i : Nat} {p : Post}
    {rest : List (Nat × Post)} {count : Nat}
    (h : ¬(cfg.maxInteractionsPerCycle ≤ count))
    (hs : selfSkip env.selfUsername p = true) :
    cycleLoop cfg env ((i, p) :: rest) count = cycleLoop cfg env rest count := by
  conv_lhs => unfold cycleLoop
  rw [if_neg h, if_pos hs]

theorem cycleLoop_interr {cfg : BrainCfg} {env : CycleEnv} {i : Nat} {p : Post}
    {rest : List (Nat × Post)} {count : Nat} {e : PyError}
    (h : ¬(cfg.maxInteractionsPerCycle ≤ count))
    (hs : selfSkip env.selfUsername p = false)
    (hi : env.interacted p.id = .error e) :
    cycleLoop cfg env ((i, p) :: rest) count = ⟨[], []⟩ := by
  conv_lhs => unfold cycleLoop
  rw [if_neg h, if_neg (by simp [hs]), hi]

theorem cycleLoop_seen {cfg : BrainCfg} {env : CycleEnv} {i : Nat} {p : Post}
    {rest : List (Nat × Post)} {count : Nat}
    (h : ¬(cfg.maxInteractionsPerCycle ≤ count))
    (hs : selfSkip env.selfUsername p = false)
    (hi : env.interacted p.id = .ok true) :
    cycleLoop cfg env ((i, p) :: rest) count = cycleLoop cfg env rest count := by
  conv_lhs => unfold cycleLoop
  rw [if_neg h, if_neg (by simp [hs]), hi]

theorem cycleLoop_engerr {cfg : BrainCfg} {env : CycleEnv} {i : Nat} {p : Post}
    {rest : List (Nat × Post)} {count : Nat} {e : PyError}
    (h : ¬(cfg.maxInteractionsPerCycle ≤ count))
    (hs : selfSkip env.selfUsername p = false)
    (hi : env.interacted p.id = .ok false)
    (he : (env.items i).engage = .error e) :
    cycleLoop cfg env ((i, p) :: rest) count
      = ⟨[], [.shouldEngageCall p.id]⟩ := by
  conv_lhs => unfold cycleLoop
  rw [if_neg h, if_neg (by simp [hs]), hi]
  dsimp only
  rw [he]

theorem cycleLoop_decline {cfg : BrainCfg} {env : CycleEnv} {i : Nat} {p : Post}
    {rest : List (Nat × Post)} {count : Nat} {reason : String}
    (h : ¬(cfg.maxInteractionsPerCycle ≤ count))
    (hs : selfSkip env.selfUsername p = false)
    (hi : env.interacted p.id = .ok false)
    (he : (env.items i).engage = .ok (false, reason)) :
    cycleLoop cfg env ((i, p) :: rest) count
      = ⟨(cycleLoop cfg env rest count).results,
         .shouldEngageCall p.id :: (cycleLoop cfg env rest count).events⟩ := by
  conv_lhs => unfold cycleLoop
  rw [if_neg h, if_neg (by simp [hs]), hi]
  dsimp only
  rw [he]
  rfl

theorem cycleLoop_readonly {cfg : BrainCfg} {env : CycleEnv} {i : Nat} {p : Post}
    {rest : List (Nat × Post)} {count : Nat} {reason : String}
    (h : ¬(cfg.maxInteractionsPerCycle ≤ count))
    (hs : selfSkip env.selfUsername p = false)
    (hi : env.interacted p.id = .ok false)
    (he : (env.items i).engage = .ok (true, reason))
    (hd : pyIsDigit p.id = false) :
    cycleLoop cfg env ((i, p) :: rest) count
      = ⟨(cycleLoop cfg env rest count).results,
         .shouldEngageCall p.id :: (cycleLoop cfg env rest count).events⟩ := by
  conv_lhs => unfold cycleLoop
  rw [if_neg h, if_neg (by simp [hs]), hi]
  dsimp only
  rw [he]
  simp [hd]

theorem cycleLoop_process {cfg : BrainCfg} {env : CycleEnv} {i : Nat} {p : Post}
    {rest : List (Nat × Post)} {count : Nat} {reason : String}
    (h : ¬(cfg.maxInteractionsPerCycle ≤ count))
    (hs : selfSkip env.selfUsername p = false)
    (hi : env.interacted p.id = .ok false)
    (he : (env.items i).engage = .ok (true, reason))
    (hd : pyIsDigit p.id = true) :
    cycleLoop cfg env ((i, p) :: rest) count
      = ⟨(interactWithPost cfg (env.items i) p).result ::
           (cycleLoop cfg env rest
             (if (interactWithPost cfg (env.items i) p).result.success
              then count + 1 else count)).results,
         .shouldEngageCall p.id ::
           ((interactWithPost cfg (env.items i) p).events ++
             (cycleLoop cfg env rest
               (if (interactWithPost cfg (env.items i) p).result.success
                then count + 1 else count)).events)⟩ := by
  conv_lhs => unfold cycleLoop
  rw [if_neg h, if_neg (by simp [hs]), hi]
  dsimp only
  rw [he]
  simp [hd]

theorem cycleLoop_induct (cfg : BrainCfg) (env : CycleEnv)
    (P : Nat → LoopOut → Prop)
    (hempty : ∀ count, P count ⟨[], []⟩)
    (hengerr : ∀ (i : Nat) (p : Post) count, count < cfg.maxInteractionsPerCycle →
      env.interacted p.id = .ok false →
      P count ⟨[], [.shouldEngageCall p.id]⟩)
    (hdecline : ∀ (i : Nat) (p : Post) count out,
      count < cfg.maxInteractionsPerCycle →
      env.interacted p.id = .ok false → P count out →
      P count ⟨out.results, .shouldEngageCall p.id :: out.events⟩)
    (hprocess : ∀ (i : Nat) (p : Post) count out,
      count < cfg.maxInteractionsPerCycle →
      env.interacted p.id = .ok false →
      (∃ reason, (env.items i).engage = .ok (true, reason)) →
      pyIsDigit p.id = true →
      P (if (interactWithPost cfg (env.items i) p).result.success
         then count + 1 else count) out →
      P count ⟨(interactWithPost cfg (env.items i) p).result :: out.results,
               .shouldEngageCall p.id ::
                 ((interactWithPost cfg (env.items i) p).events ++ out.events)⟩) :
    ∀ (l : List (Nat × Post)) (count : Nat), P count (cycleLoop cfg env l count) := by
  intro l
  induction l with
  | nil => intro count; simpa [cycleLoop] using hempty count
  | cons ip rest ih =>
    obtain ⟨i, p⟩ := ip
    intro count
    by_cases hcap : cfg.maxInteractionsPerCycle ≤ count
    · rw [cycleLoop_cap hcap]; exact hempty count
    · have hlt : count < cfg.maxInteractionsPerCycle := by omega
      by_cases hself : selfSkip env.selfUsername p = true
      · rw [cycleLoop_self hcap hself]; exact ih count
      · have hs : selfSkip env.selfUsername p = false := Bool.eq_false_iff.mpr hself
        cases hint : env.interacted p.id with
        | error e => rw [cycleLoop_interr hcap hs hint]; exact hempty count
        | ok b =>
          cases b with
          | true => rw [cycleLoop_seen hcap hs hint]; exact ih count
          | false =>
            cases heng : (env.items i).engage with
            | error e =>
              rw [cycleLoop_engerr hcap hs hint heng]
              exact hengerr i p count hlt hint
            | ok er =>
              obtain ⟨eng, reason⟩ := er
              cases eng with
              | false =>
                rw [cycleLoop_decline hcap hs hint heng]
                exact hdecline i p count _ hlt hint (ih count)
              | true =>
                by_cases hd : pyIsDigit p.id = true
                · rw [cycleLoop_process hcap hs hint heng hd]
                  exact hprocess i p count _ hlt hint ⟨reason, heng⟩ hd (ih _)
                · have hd2 : pyIsDigit p.id = false := Bool.eq_false_iff.mpr hd
                  rw [cycleLoop_readonly hcap hs hint heng hd2]
                  exact hdecline i p count _ hlt hint (ih count)

theorem cycleLoop_skips_interacted (cfg : BrainCfg) (env : CycleEnv)
    (pid : String) (hptrue : env.interacted pid = .ok true)
    (l : List (Nat × Post)) (count : Nat) :
    Event.shouldEngageCall pid ∉ (cycleLoop cfg env l count).events ∧
    Event.generateCall pid ∉ (cycleLoop cfg env l count).events ∧
    (∀ t, Event.replyCall pid t ∉ (cycleLoop cfg env l count).events) ∧
    ∀ r ∈ (cycleLoop cfg env l count).results, r.post_id ≠ pid := by
  have hne : ∀ p : Post, env.interacted p.id = .ok false → p.id ≠ pid := by
    intro p hp hcontra
    rw [hcontra, hptrue] at hp
    simp at hp
  refine cycleLoop_induct cfg env
    (fun _ out =>
      Event.shouldEngageCall pid ∉ out.events ∧
      Event.generateCall pid ∉ out.events ∧
      (∀ t, Event.replyCall pid t ∉ out.events) ∧
      ∀ r ∈ out.results, r.post_id ≠ pid)
    ?_ ?_ ?_ ?_ l count
  · intro count
    simp
  · intro i p count _ hp
    have := hne p hp
    simp only [List.mem_singleton, List.not_mem_nil]
    refine ⟨?_, ?_, ?_, by simp⟩
    · intro h; injection h with h; exact this h.symm
    · intro h; exact Event.noConfusion h
    · intro t h; exact Event.noConfusion h
  · intro i p count out _ hp ⟨ih1, ih2, ih3, ih4⟩
    have hpne := hne p hp
    refine ⟨?_, ?_, ?_, ih4⟩
    · intro h
      rcases List.mem_cons.mp h with h | h
      · injection h with h; exact hpne h.symm
      · exact ih1 h
    · intro h
      rcases List.mem_cons.mp h with h | h
      · exact Event.noConfusion h
      · exact ih2 h
    · intro t h
      rcases List.mem_cons.mp h with h | h
      · exact Event.noConfusion h
      · exact ih3 t h
  · intro i p count out _ hp _ _ ⟨ih1, ih2, ih3, ih4⟩
    have hpne := hne p hp
    have hio := interactWithPost_events_shape cfg (env.items i) p
    refine ⟨?_, ?_, ?_, ?_⟩
    · intro h
      rcases List.mem_cons.mp h with h | h
      · injection h with h; exact hpne h.symm
      · rcases List.mem_append.mp h with h | h
        · rcases hio _ h with h1 | ⟨t, h1⟩ <;> exact Event.noConfusion h1
        · exact ih1 h
    · intro h
      rcases List.mem_cons.mp h with h | h
      · exact Event.noConfusion h
      · rcases List.mem_append.mp h with h | h
        · rcases hio _ h with h1 | ⟨t, h1⟩
          · injection h1 with h1; exact hpne h1.symm
          · exact Event.noConfusion h1
        · exact ih2 h
    · intro t h
      rcases List.mem_cons.mp h with h | h
      · exact Event.noConfusion h
      · rcases List.mem_append.mp h with h | h
        · rcases hio _ h with h1 | ⟨t2, h1⟩
          · exact Event.noConfusion h1
          · injection h1 with h1; exact hpne h1.symm
        · exact ih3 t h
    · intro r hr
      rcases List.mem_cons.mp hr with hr | hr
      · rw [hr, interactWithPost_post_id]
        exact hpne
      · exact ih4 r hr

theorem cycleLoop_no_fetch (cfg : BrainCfg) (env : CycleEnv)
    (l : List (Nat × Post)) (count : Nat) :
    Event.fetchCall ∉ (cycleLoop cfg env l count).events := by
  refine cycleLoop_induct cfg env
    (fun _ out => Event.fetchCall ∉ out.events) ?_ ?_ ?_ ?_ l count
  · intro count; simp
  · intro i p count _ _ h
    simp only [List.mem_singleton] at h
    exact Event.noConfusion h
  · intro i p count out _ _ ih h
    rcases List.mem_cons.mp h with h | h
    · exact Event.noConfusion h
    · exact ih h
  · intro i p count out _ _ _ _ ih h
    rcases List.mem_cons.mp h with h | h
    · exact Event.noConfusion h
    · rcases List.mem_append.mp h with h | h
      · exact interactWithPost_no_fetch cfg (env.items i) p h
      · exact ih h

theorem cycleLoop_success_bound (cfg : BrainCfg) (env : CycleEnv)
    (l : List (Nat × Post)) (count : Nat) :
    count ≤ cfg.maxInteractionsPerCycle →
    successCount (cycleLoop cfg env l count).results + count
      ≤ cfg.maxInteractionsPerCycle := by
  refine cycleLoop_induct cfg env
    (fun count out => count ≤ cfg.maxInteractionsPerCycle →
      successCount out.results + count ≤ cfg.maxInteractionsPerCycle)
    ?_ ?_ ?_ ?_ l count
  · intro count h; simpa [successCount] using h
  · intro i p count hlt _ _; simpa [successCount] using hlt.le
  · intro i p count out _ _ ih h; exact ih h
  · intro i p count out hlt _ _ _ ih _
    by_cases hsucc : (interactWithPost cfg (env.items i) p).result.success = true
    · have := ih (by rw [if_pos hsucc]; omega)
      rw [if_pos hsucc] at this
      simp only [successCount, List.filter_cons, hsucc, if_pos] at this ⊢
      simp only [List.length_cons]
      omega
    · have hf : (interactWithPost cfg (env.items i) p).result.success = false :=
        Bool.eq_false_iff.mpr hsucc
      have := ih (by rw [if_neg hsucc]; omega)
      rw [if_neg hsucc] at this
      simp only [successCount, List.filter_cons, hf] at this ⊢
      simp only [Bool.false_eq_true, if_false]
      omega

theorem run_cycle_ok_body (cfg : BrainCfg) (env : CycleEnv)
    (ext : Option (List Post)) (out : CycleOutcome)
    (hrun : run_cycle cfg env ext = .ok out) :
    out = runCycleBody cfg env ext := by
  unfold run_cycle at hrun
  cases ho : env.openResult with
  | error e => rw [ho] at hrun; simp at hrun
  | ok u =>
    rw [ho] at hrun
    simp only [Except.ok.injEq] at hrun
    exact hrun.symm

theorem runCycleBody_cases (cfg : BrainCfg) (env : CycleEnv)
    (external : Option (List Post)) :
    runCycleBody cfg env external = ⟨[], [], none⟩ ∨
    ∃ posts ev0, (ev0 = [] ∨ ev0 = [Event.fetchCall]) ∧
      runCycleBody cfg env external =
        ⟨(cycleLoop cfg env posts.enum 0).results,
         ev0 ++ (cycleLoop cfg env posts.enum 0).events, some posts⟩ := by
  unfold runCycleBody
  dsimp only
  repeat' split
  all_goals
    first
    | exact Or.inl rfl
    | exact Or.inr ⟨_, [], Or.inl rfl, rfl⟩
    | exact Or.inr ⟨_, [Event.fetchCall], Or.inr rfl, rfl⟩

theorem runCycleBody_external_run (cfg : BrainCfg) (env : CycleEnv)
    (l : List Post) (hne : l ≠ [])
    (h1 : env.shouldReflect = .ok false) (h2 : env.canReply = .ok true) :
    runCycleBody cfg env (some l) =
      ⟨(cycleLoop cfg env l.enum 0).results,
       (cycleLoop cfg env l.enum 0).events, some l⟩ := by
  have hemp : l.isEmpty = false := by
    cases l
    · exact absurd rfl hne
    · rfl
  unfold runCycleBody
  rw [h1]
  dsimp only
  rw [h2]
  dsimp only
  simp [hemp]

theorem runCycleBody_external_cases (cfg : BrainCfg) (env : CycleEnv)
    (l : List Post) (hne : l ≠ []) :
    runCycleBody cfg env (some l) = ⟨[], [], none⟩ ∨
    runCycleBody cfg env (some l) =
      ⟨(cycleLoop cfg env l.enum 0).results,
       (cycleLoop cfg env l.enum 0).events, some l⟩ := by
  have hemp : l.isEmpty = false := by
    cases l
    · exact absurd rfl hne
    · rfl
  unfold runCycleBody
  dsimp only
  simp only [hemp, Bool.false_eq_true, if_false, List.nil_append]
  repeat' split
  all_goals first | exact Or.inl rfl | exact Or.inr rfl

/-- C1: a post whose id `memory.has_interacted` answers yes for is skipped
before any engagement decision: no `should_engage`, `generate_response` or
`reply_to_post` call tagged with that id appears in the cycle's trace, and no
`InteractionResult` for that id appears in the returned list. -/
theorem run_cycle_skips_interacted (cfg : BrainCfg) (env : CycleEnv)
    (external : Option (List Post)) (out : CycleOutcome) (pid : String)
    (hrun : run_cycle cfg env external = .ok out)
    (hint : env.interacted pid = .ok true) :
    Event.shouldEngageCall pid ∉ out.events ∧
    Event.generateCall pid ∉ out.events ∧
    (∀ t, Event.replyCall pid t ∉ out.events) ∧
    ∀ r ∈ out.results, r.post_id ≠ pid := by
  have hbody := run_cycle_ok_body cfg env external out hrun
  subst hbody
  rcases runCycleBody_cases cfg env external with hcase | ⟨posts, ev0, hev0, hcase⟩
  · rw [hcase]; simp
  · rw [hcase]
    obtain ⟨h1, h2, h3, h4⟩ :=
      cycleLoop_skips_interacted cfg env pid hint posts.enum 0
    have hev : ∀ x ∈ ev0, x = Event.fetchCall := by
      rcases hev0 with rfl | rfl <;> simp
    refine ⟨?_, ?_, ?_, h4⟩
    · intro h
      rcases List.mem_append.mp h with h | h
      · exact Event.noConfusion (hev _ h)
      · exact h1 h
    · intro h
      rcases List.mem_append.mp h with h | h
      · exact Event.noConfusion (hev _ h)
      · exact h2 h
    · intro t h
      rcases List.mem_append.mp h with h | h
      · exact Event.noConfusion (hev _ h)
      · exact h3 t h

/-- C1 witness: a one-post batch whose id the memory already holds an
interaction for produces no engagement, generation or publish call and no
result. -/
theorem run_cycle_skips_interacted_witness :
    Event.shouldEngageCall "7"
        ∉ (runCycleBody {} envAllInteracted (some [postSeven])).events ∧
    Event.generateCall "7"
        ∉ (runCycleBody {} envAllInteracted (some [postSeven])).events ∧
    (∀ t, Event.replyCall "7" t
        ∉ (runCycleBody {} envAllInteracted (some [postSeven])).events) ∧
    ∀ r ∈ (runCycleBody {} envAllInteracted (some [postSeven])).results,
      r.post_id ≠ "7" :=
  run_cycle_skips_interacted {} envAllInteracted (some [postSeven])
    (runCycleBody {} envAllInteracted (some [postSeven])) "7" rfl rfl

/-- C2 counterexample: when `threads.open()` raises, the exception escapes
`run_cycle` (the call happens in `_ensure_clients_ready`, before the `try:`
block), so `run_cycle` does not always return a list. -/
theorem run_cycle_open_failure_escapes :
    run_cycle {} envOpenFail none
      = Except.error (.other "connection failed") ∧
    ∀ out, run_cycle {} envOpenFail none ≠ Except.ok out := by
  refine ⟨rfl, ?_⟩
  intro out h
  simp [run_cycle, envOpenFail] at h

/-- C2 (amended): `run_cycle` raises exactly when client initialization
(`threads.open()` inside `_ensure_clients_ready`, which runs before the
`try:` block) raises, propagating that same exception; for every other input
— any failure of the reflection engine, rate-limit check, fetch, memory
adapter or per-item collaborators — it returns a (possibly empty) list. -/
theorem run_cycle_error_iff (cfg : BrainCfg) (env : CycleEnv)
    (ext : Option (List Post)) (e : PyError) :
    run_cycle cfg env ext = Except.error e ↔ env.openResult = Except.error e := by
  unfold run_cycle
  cases ho : env.openResult with
  | error e2 => simp
  | ok u => simp

theorem cycleLoop_exact (cfg : BrainCfg) (env : CycleEnv) :
    ∀ (l : List (Nat × Post)) (count : Nat),
      count ≤ cfg.maxInteractionsPerCycle →
      (∀ ip ∈ l, eligibleAt cfg env ip.1 ip.2) →
      cfg.maxInteractionsPerCycle - count ≤ l.length →
      successCount (cycleLoop cfg env l count).results
          = cfg.maxInteractionsPerCycle - count ∧
      (cycleLoop cfg env l count).results.length
          = cfg.maxInteractionsPerCycle - count ∧
      engageCount (cycleLoop cfg env l count).events
          = cfg.maxInteractionsPerCycle - count := by
  intro l
  induction l with
  | nil =>
    intro count _ _ hlen
    have h0 : cfg.maxInteractionsPerCycle - count = 0 := by
      simp only [List.length_nil] at hlen
      omega
    simp [cycleLoop, h0, successCount, engageCount]
  | cons ip rest ih =>
    obtain ⟨i, p⟩ := ip
    intro count hc helig hlen
    by_cases hcap : cfg.maxInteractionsPerCycle ≤ count
    · have h0 : cfg.maxInteractionsPerCycle - count = 0 := by omega
      rw [cycleLoop_cap hcap]
      simp [h0, successCount, engageCount]
    · obtain ⟨hself, hint, ⟨reason, heng⟩, hdig, hsucc⟩ :=
        helig (i, p) (List.mem_cons_self _ _)
      rw [cycleLoop_process hcap hself hint heng hdig, if_pos hsucc]
      dsimp only
      have hlen2 : cfg.maxInteractionsPerCycle - (count + 1) ≤ rest.length := by
        simp only [List.length_cons] at hlen
        omega
      obtain ⟨e1, e2, e3⟩ := ih (count + 1) (by omega)
        (fun ip hip => helig ip (List.mem_cons_of_mem _ hip)) hlen2
      simp only [successCount] at e1
      simp only [engageCount] at e3
      refine ⟨?_, ?_, ?_⟩
      · simp only [successCount, List.filter_cons, hsucc, if_pos,
          List.length_cons]
        omega
      · simp only [List.length_cons]
        omega
      · have hio := interactWithPost_no_engage cfg (env.items (i, p).1) (i, p).2
        simp only [engageCount] at hio
        have hhead : isEngageEvent (Event.shouldEngageCall (i, p).2.id) = true := rfl
        simp only [engageCount, List.filter_cons, hhead, if_true,
          List.filter_append, List.length_cons, List.length_append]
        omega

/-- C3: the number of successful results a cycle returns never exceeds
`max_interactions_per_cycle`; and when an external batch longer than the cap
consists only of eligible items whose interaction attempts all succeed,
exactly `cap` results are produced (all successful) and exactly `cap`
engagement decisions are made — no further item is attempted once the cap is
reached. -/
theorem run_cycle_cap (cfg : BrainCfg) (env : CycleEnv)
    (ext : Option (List Post)) (out : CycleOutcome)
    (hrun : run_cycle cfg env ext = .ok out) :
    successCount out.results ≤ cfg.maxInteractionsPerCycle ∧
    (∀ l, ext = some l →
      env.shouldReflect = .ok false → env.canReply = .ok true →
      cfg.maxInteractionsPerCycle < l.length →
      (∀ ip ∈ l.enum, eligibleAt cfg env ip.1 ip.2) →
      successCount out.results = cfg.maxInteractionsPerCycle ∧
      out.results.length = cfg.maxInteractionsPerCycle ∧
      engageCount out.events = cfg.maxInteractionsPerCycle) := by
  have hbody := run_cycle_ok_body cfg env ext out hrun
  subst hbody
  constructor
  · rcases runCycleBody_cases cfg env ext with hcase | ⟨posts, ev0, _, hcase⟩
    · rw [hcase]; simp [successCount]
    · rw [hcase]
      dsimp only
      have hb := cycleLoop_success_bound cfg env posts.enum 0 (by omega)
      omega
  · intro l hl h1 h2 hlen helig
    subst hl
    have hne : l ≠ [] := by
      intro h
      subst h
      simp at hlen
    rw [runCycleBody_external_run cfg env l hne h1 h2]
    have hexact := cycleLoop_exact cfg env l.enum 0 (by omega) helig
      (by rw [List.enum_length]; omega)
    simpa using hexact

/-- C3 witness: cap 1, two eligible always-successful items — exactly one
success, one result, one engagement decision. -/
theorem run_cycle_cap_witness :
    successCount outEager.results = 1 ∧
    outEager.results.length = 1 ∧
    engageCount outEager.events = 1 := by
  have helig : ∀ ip ∈ ([postOne, postTwo].enum),
      eligibleAt cfgObs1 envEager ip.1 ip.2 := by
    have henum : ([postOne, postTwo].enum) = [(0, postOne), (1, postTwo)] := rfl
    rw [henum]
    intro ip hip
    rcases List.mem_cons.mp hip with rfl | hip
    · exact ⟨rfl, rfl, ⟨"interest_match", rfl⟩, rfl, rfl⟩
    rcases List.mem_cons.mp hip with rfl | hip
    · exact ⟨rfl, rfl, ⟨"interest_match", rfl⟩, rfl, rfl⟩
    · simp at hip
  exact (run_cycle_cap cfgObs1 envEager (some [postOne, postTwo]) outEager
    rfl).2 [postOne, postTwo] rfl rfl rfl (by decide) helig

/-- C5: `_interact_with_post` performs at most one refinement on every code
path, and when the adherence check fails both before and after the single
refinement, the item terminates with a failed result carrying reason
`persona_adherence_failed`, refinement count 1, and no publish attempt. -/
theorem interactWithPost_refinement (cfg : BrainCfg) (o : ItemOracle) (p : Post) :
    (interactWithPost cfg o p).refinements ≤ 1 ∧
    (∀ ctx resp s1 r1 refined s2 r2,
      o.contextResult = .ok ctx → o.genResult = .ok resp →
      o.verify1 = .ok (false, s1, r1) → o.refineResult = .ok refined →
      o.verify2 = .ok (false, s2, r2) →
      (interactWithPost cfg o p).result
          = ⟨false, p.id, none, "persona_adherence_failed"⟩ ∧
      (interactWithPost cfg o p).refinements = 1 ∧
      ∀ orig t, Event.replyCall orig t ∉ (interactWithPost cfg o p).events) := by
  refine ⟨interactWithPost_refinements_le cfg o p, ?_⟩
  intro ctx resp s1 r1 refined s2 r2 hctx hgen hv1 href hv2
  have hstep : interactWithPost cfg o p =
      ⟨⟨false, p.id, none, "persona_adherence_failed"⟩, some s2, 1,
        [.generateCall p.id]⟩ := by
    conv_lhs => unfold interactWithPost
    simp [hctx, hgen, hv1, href, hv2, failRes]
  rw [hstep]
  refine ⟨rfl, rfl, ?_⟩
  intro orig t hmem
  simp only [List.mem_singleton] at hmem
  exact Event.noConfusion hmem

/-- C5 witness: an oracle failing adherence twice yields the terminal
`persona_adherence_failed` result with refinement count 1 and no publish
call. -/
theorem interactWithPost_refinement_witness :
    (interactWithPost ⟨5, false⟩ failOracle postOne).result
        = ⟨false, "1", none, "persona_adherence_failed"⟩ ∧
    (interactWithPost ⟨5, false⟩ failOracle postOne).refinements = 1 ∧
    ∀ orig t, Event.replyCall orig t
        ∉ (interactWithPost ⟨5, false⟩ failOracle postOne).events :=
  (interactWithPost_refinement ⟨5, false⟩ failOracle postOne).2
    "" "first draft" (2/5) (some "off persona") "second draft" (1/2)
    (some "still off") rfl rfl rfl rfl rfl

/-- C9 counterexample: an explicitly supplied empty batch does not skip the
fetch stage — `if external_posts:` is falsy for `[]`, so the cycle falls
through to `_fetch_interesting_posts` and a fetch call occurs. -/
theorem run_cycle_empty_batch_fetches :
    run_cycle {} envQuiet (some ([] : List Post))
      = .ok ⟨[], [Event.fetchCall], some []⟩ ∧
    Event.fetchCall ∈ (⟨[], [Event.fetchCall], some []⟩ : CycleOutcome).events := by
  exact ⟨rfl, by simp⟩

/-- C9 (amended): for every non-empty supplied batch, `run_cycle` makes no
fetch call and, once the reflection and rate-limit gates pass, processes
exactly the supplied posts verbatim in order (no shuffling, deduplication or
truncation); an empty supplied batch instead falls through to the fetch
stage. -/
theorem run_cycle_external_batch (cfg : BrainCfg) (env : CycleEnv)
    (l : List Post) (out : CycleOutcome) (hne : l ≠ [])
    (hrun : run_cycle cfg env (some l) = .ok out) :
    Event.fetchCall ∉ out.events ∧
    (out.usedBatch = none ∨ out.usedBatch = some l) ∧
    (env.shouldReflect = .ok false → env.canReply = .ok true →
      out.usedBatch = some l ∧
      out.results = (cycleLoop cfg env l.enum 0).results) := by
  have hbody := run_cycle_ok_body cfg env (some l) out hrun
  subst hbody
  rcases runCycleBody_external_cases cfg env l hne with hcase | hcase
  · rw [hcase]
    refine ⟨by simp, Or.inl rfl, ?_⟩
    intro h1 h2
    have h3 := runCycleBody_external_run cfg env l hne h1 h2
    rw [hcase] at h3
    simp at h3
  · rw [hcase]
    exact ⟨cycleLoop_no_fetch cfg env l.enum 0, Or.inr rfl,
      fun _ _ => ⟨rfl, rfl⟩⟩

/-- C9 witness: a supplied one-post batch is used verbatim with no fetch
call. -/
theorem run_cycle_external_batch_witness :
    Event.fetchCall ∉ outQuiet.events ∧
    (outQuiet.usedBatch = none ∨ outQuiet.usedBatch = some [postOne]) ∧
    (envQuiet.shouldReflect = .ok false → envQuiet.canReply = .ok true →
      outQuiet.usedBatch = some [postOne] ∧
      outQuiet.results = (cycleLoop {} envQuiet ([postOne].enum) 0).results) :=
  run_cycle_external_batch {} envQuiet [postOne] outQuiet (by simp) rfl

end Anima
